import Mathlib

/-!
Verification of the SelfMapVisualization chart renderer
(`src/src/components/SelfMapVisualization.tsx`).

The component is embedded shallowly: JavaScript numbers become rationals
(`ℚ`), the d3 linear scales become explicit affine maps, the stateful
ordinal color scale becomes explicit state passing of its assignment
list, the rendered SVG tree becomes a `Chart` structure, and the
mouseover/mouseout handlers become transition functions on a
`HoverState` record.
-/

namespace SelfMap

/-- The `IdentityData` interface: a numeric `Strength` and optional
descriptive fields (`Title?`, `Beliefs?`, `Style?`). -/
structure IdentityData where
  Strength : ℚ
  Title : Option String := none
  Beliefs : Option String := none
  Style : Option String := none
deriving Repr, DecidableEq, Inhabited

/-- One element of `processedData`: `{ name: key, strength: value.Strength,
details: value }`. -/
structure ProcessedEntry where
  name : String
  strength : ℚ
  details : IdentityData
deriving Repr, DecidableEq, Inhabited

/-- `Object.entries(data).map(([key, value]) => ({name: key,
strength: value.Strength, details: value}))`.  The input mapping is
represented as its entry list in iteration order. -/
def processData (data : List (String × IdentityData)) : List ProcessedEntry :=
  data.map (fun p => { name := p.1, strength := p.2.Strength, details := p.2 })

/-- `margin = { top: 60, right: 160, bottom: 60, left: 60 }`. -/
def marginTop : ℚ := 60

def marginRight : ℚ := 160

def marginBottom : ℚ := 60

def marginLeft : ℚ := 60

/-- `width = 900 - margin.left - margin.right` (= 680). -/
def width : ℚ := 900 - marginLeft - marginRight

/-- `height = 700 - margin.top - margin.bottom` (= 580). -/
def height : ℚ := 700 - marginTop - marginBottom

/-- `d3.scaleLinear().domain([-10, 10]).range([0, width])`: the affine
interpolation `r0 + (v - d0) / (d1 - d0) * (r1 - r0)`. -/
def xScale (v : ℚ) : ℚ := 0 + (v - (-10)) / (10 - (-10)) * (width - 0)

/-- `d3.scaleLinear().domain([-10, 10]).range([height, 0])` (inverted
y-axis). -/
def yScale (v : ℚ) : ℚ := height + (v - (-10)) / (10 - (-10)) * (0 - height)

/-- `calculatePosition`: `if (value === 10) return scale(0); if (value >= 5)
return scale(value / 2); return scale(value);`. -/
def calculatePosition (value : ℚ) (scale : ℚ → ℚ) : ℚ :=
  if value = 10 then scale 0
  else if value ≥ 5 then scale (value / 2)
  else scale value

/-- `baseSize = 7` inside `calculateSize`. -/
def baseSize : ℚ := 7

/-- `calculateSize`: `if (value === 10) return baseSize * 1.8; if (value >= 5)
return baseSize * 1.4; return baseSize;`. -/
def calculateSize (value : ℚ) : ℚ :=
  if value = 10 then baseSize * 1.8
  else if value ≥ 5 then baseSize * 1.4
  else baseSize

/-- The `d3.schemeSet3` qualitative palette (12 colors), the range of the
ordinal color scale. -/
def schemeSet3 : List String :=
  ["#8dd3c7", "#ffffb3", "#bebada", "#fb8072", "#80b1d3", "#fdb462",
   "#b3de69", "#fccde5", "#d9d9d9", "#bc80bd", "#ccebc5", "#ffed6f"]

/-- One call of `d3.scaleOrdinal().range(d3.schemeSet3)`: an unseen name is
appended to the assignment list and gets the next index; a seen name keeps
its first index.  Returns the index and the updated assignment list. -/
def ordinalIndex (assigned : List String) (name : String) : ℕ × List String :=
  if name ∈ assigned then (assigned.indexOf name, assigned)
  else (assigned.length, assigned ++ [name])

/-- `colorScale(name)`: the palette color of the ordinal index (d3 cycles
through the range with the index modulo the range size), with the updated
scale state. -/
def ordinalColor (assigned : List String) (name : String) : String × List String :=
  let r := ordinalIndex assigned name
  (schemeSet3.getD (r.1 % schemeSet3.length) "", r.2)

/-- The color the ordinal scale answers for `name` once its assignment
list is `assigned`: the palette entry at the name's first-assignment
index, modulo the palette size. -/
def colorAt (assigned : List String) (name : String) : String :=
  schemeSet3.getD (assigned.indexOf name % schemeSet3.length) ""

/-- An SVG `<circle>` as the renderer configures it. -/
structure Circle where
  cx : ℚ
  cy : ℚ
  r : ℚ
  fill : String
deriving Repr, DecidableEq

/-- One `g.point-group`: the translucent glow circle and the solid inner
dot. -/
structure PointGroup where
  glow : Circle
  dot : Circle
deriving Repr, DecidableEq

/-- One `g.legend-item`: the color swatch rect and the entry-name label. -/
structure LegendRow where
  swatchFill : String
  label : String
deriving Repr, DecidableEq

/-- The visual tree one `useEffect` run constructs inside the container:
grid groups, axis groups, the data points, the legend rows and the
title/subtitle texts. -/
structure Chart where
  gridGroups : ℕ
  axisGroups : ℕ
  points : List PointGroup
  legendRows : List LegendRow
  titleText : String
  subtitleText : String
deriving Repr, DecidableEq

/-- The point-drawing pass: for each processed entry, a glow circle
(radius `calculateSize * 2`, gradient fill) and an inner dot (radius
`calculateSize`, fill `colorScale(d.name)`), both centered at
`(calculatePosition(strength, xScale), calculatePosition(strength, yScale))`.
The ordinal scale state is threaded in data order, the order in which d3
evaluates the fill accessor. -/
def drawPoints (entries : List ProcessedEntry) (assigned : List String) :
    List PointGroup × List String :=
  match entries with
  | [] => ([], assigned)
  | e :: rest =>
    let cx := calculatePosition e.strength xScale
    let cy := calculatePosition e.strength yScale
    let c := ordinalColor assigned e.name
    let g : PointGroup :=
      { glow := { cx := cx, cy := cy, r := calculateSize e.strength * 2,
                  fill := "url(#point-gradient)" }
        dot := { cx := cx, cy := cy, r := calculateSize e.strength,
                 fill := c.1 } }
    let rec_ := drawPoints rest c.2
    (g :: rec_.1, rec_.2)

/-- The legend pass: one row per processed entry, swatch filled with
`colorScale(d.name)`, label `d.name`; the ordinal scale state continues
from the point-drawing pass. -/
def drawLegend (entries : List ProcessedEntry) (assigned : List String) :
    List LegendRow × List String :=
  match entries with
  | [] => ([], assigned)
  | e :: rest =>
    let c := ordinalColor assigned e.name
    let rec_ := drawLegend rest c.2
    ({ swatchFill := c.1, label := e.name } :: rec_.1, rec_.2)

/-- The body of the `useEffect` after the guard: grid (two groups), axes
(two groups), processed data, points, legend, title and subtitle.  The
ordinal color scale starts empty and is threaded through points, then
legend. -/
def buildChart (data : List (String × IdentityData)) : Chart :=
  let entries := processData data
  let pts := drawPoints entries []
  let rows := drawLegend entries pts.2
  { gridGroups := 2
    axisGroups := 2
    points := pts.1
    legendRows := rows.1
    titleText := "Personal Identity Map"
    subtitleText := "Exploring the dimensions of self-identity and personal values" }

/-- The whole `useEffect` acting on the container's child list:
`if (!data || !chartRef.current) return;` leaves the container untouched;
otherwise `d3.select(chartRef.current).selectAll("*").remove()` clears it
and the new chart is appended.  `data = none` models a null/undefined
mapping; `hasContainer = false` models an absent container element. -/
def render (data : Option (List (String × IdentityData))) (hasContainer : Bool)
    (container : List Chart) : List Chart :=
  match data, hasContainer with
  | some d, true => ([] : List Chart) ++ [buildChart d]
  | _, _ => container

/-- An SVG `<line>` of class `connection-line` as the mouseover handler
configures it. -/
structure Line where
  x1 : ℚ
  y1 : ℚ
  x2 : ℚ
  y2 : ℚ
  stroke : String
deriving Repr, DecidableEq

/-- The class attribute the mouseover handler gives the tooltip `div`,
split into the class list the DOM sees. -/
def tooltipClasses : List String :=
  ["absolute", "bg-black", "bg-opacity-90", "text-white", "p-3", "rounded-lg",
   "pointer-events-none", "opacity-0", "transition-opacity", "duration-300",
   "text-sm", "max-w-xs", "shadow-lg"]

/-- A default `ProcessedEntry`, used only as the out-of-range fallback of
`List.getD` at indices that are always in range. -/
def defaultEntry : ProcessedEntry :=
  { name := "", strength := 0, details := { Strength := 0 } }

/-- The mutable scene the hover handlers touch: the input mapping and
`processedData` (never written), the per-dot radii, the ordinal scale
state, the `connection-line` children of `lineGroup`, and the class lists
of the extra elements appended to `document.body`. -/
structure HoverState where
  data : List (String × IdentityData)
  entries : List ProcessedEntry
  dotRadius : List ℚ
  assigned : List String
  connLines : List Line
  bodyElems : List (List String)
deriving Repr, DecidableEq

/-- The `mouseover` handler for the dot at index `i` of `processedData`:
append the tooltip `div` to the body, enlarge the dot to
`calculateSize(d.strength) * 1.2`, and join one `connection-line` per
entry other than the hovered one (`processedData.filter(item => item !== d)`;
the processed records are distinct fresh objects, so reference
inequality keeps exactly the entries at the other indices), each from the
hovered point's position to the other point's position, stroked with
`colorScale(d.name)`.  Handlers only exist on drawn dots, so `i` is in
range; out-of-range `i` is a no-op. -/
def mouseover (s : HoverState) (i : ℕ) : HoverState :=
  match s.entries.get? i with
  | none => s
  | some d =>
    let c := ordinalColor s.assigned d.name
    let cx := calculatePosition d.strength xScale
    let cy := calculatePosition d.strength yScale
    { s with
      bodyElems := s.bodyElems ++ [tooltipClasses]
      dotRadius := s.dotRadius.set i (calculateSize d.strength * 1.2)
      assigned := c.2
      connLines :=
        ((List.range s.entries.length).filter (fun j => j ≠ i)).map (fun j =>
          let item := s.entries.getD j defaultEntry
          { x1 := cx, y1 := cy,
            x2 := calculatePosition item.strength xScale,
            y2 := calculatePosition item.strength yScale,
            stroke := c.1 }) }

/-- The `mouseout` handler for the dot at index `i`: restore the dot's
radius to `calculateSize(d.strength)`, remove every `connection-line`
from `lineGroup`, and `d3.selectAll(".absolute").remove()` — remove every
document element whose class list contains `"absolute"`. -/
def mouseout (s : HoverState) (i : ℕ) : HoverState :=
  { s with
    dotRadius :=
      match s.entries.get? i with
      | none => s.dotRadius
      | some d => s.dotRadius.set i (calculateSize d.strength)
    connLines := []
    bodyElems := s.bodyElems.filter (fun cls => ! cls.contains "absolute") }

/-- A concrete input mapping used to instantiate the theorems. -/
def sampleData : List (String × IdentityData) :=
  [("Creativity", { Strength := 3 }),
   ("Family", { Strength := 10 }),
   ("Career", { Strength := 7 })]

/-- A concrete hover scene over `sampleData`, whose document also holds an
unrelated element carrying the class `"absolute"`. -/
def sampleState : HoverState :=
  { data := sampleData
    entries := processData sampleData
    dotRadius := (processData sampleData).map (fun e => calculateSize e.strength)
    assigned := (drawPoints (processData sampleData) []).2
    connLines := []
    bodyElems := [["absolute", "unrelated-banner"]] }

/- ### Helper lemmas -/

theorem drawPoints_centers (entries : List ProcessedEntry) (a : List String) :
    (drawPoints entries a).1.map (fun g => (g.dot.cx, g.dot.cy)) =
      entries.map (fun e =>
        (calculatePosition e.strength xScale, calculatePosition e.strength yScale)) := by
  induction entries generalizing a with
  | nil => rfl
  | cons e rest ih => simp [drawPoints, ih]

theorem length_filter_range_ne (n i : ℕ) (h : i < n) :
    ((List.range n).filter (fun j => j ≠ i)).length = n - 1 := by
  induction n with
  | zero => omega
  | succ n ih =>
    rw [List.range_succ, List.filter_append, List.length_append]
    by_cases hni : i = n
    · subst hni
      have h1 : (List.range i).filter (fun j => j ≠ i) = List.range i := by
        apply List.filter_eq_self.mpr
        intro a ha
        simp only [List.mem_range] at ha
        simp [Nat.ne_of_lt ha]
      have h2 : ([i].filter (fun j => j ≠ i)) = [] := by simp
      rw [h1, h2]
      simp
    · have hn : n ≠ i := fun hh => hni hh.symm
      have h2 := ih (by omega)
      have h3 : ([n].filter (fun j => j ≠ i)) = [n] := by simp [hn]
      rw [h2, h3]
      simp
      omega

theorem get?_eq_some_getD (l : List ProcessedEntry) (i : ℕ) (h : i < l.length) :
    l.get? i = some (l.getD i defaultEntry) := by
  cases hx : l.get? i with
  | none => exact absurd (List.get?_eq_none.mp hx) (by omega)
  | some a =>
    rw [List.getD_eq_getElem?_getD, ← List.get?_eq_getElem?, hx]
    rfl

/- ### Claims -/

/-- C1: the rendered position on each axis is computed from the strength
`v` by the tiered transform — `v = 10` gives `scale 0` (the center),
`5 ≤ v < 10` gives `scale (v / 2)`, `v < 5` gives `scale v` — and the
same transform yields both the x and the y coordinate of every drawn
point. -/
theorem calculatePosition_tiering (v : ℚ) (scale : ℚ → ℚ)
    (data : List (String × IdentityData)) :
    (v = 10 → calculatePosition v scale = scale 0) ∧
    (5 ≤ v → v < 10 → calculatePosition v scale = scale (v / 2)) ∧
    (v < 5 → calculatePosition v scale = scale v) ∧
    (buildChart data).points.map (fun g => (g.dot.cx, g.dot.cy)) =
      (processData data).map (fun e =>
        (calculatePosition e.strength xScale, calculatePosition e.strength yScale)) := by
  refine ⟨fun h => by simp [calculatePosition, h],
          fun h5 h10 => by simp [calculatePosition, ne_of_lt h10, h5],
          fun h5 => by simp [calculatePosition, ne_of_lt (by linarith : v < 10),
                             not_le.mpr h5],
          ?_⟩
  simpa [buildChart] using drawPoints_centers (processData data) []

/-- Witness for C1 at concrete strengths 10, 7 and 3. -/
theorem calculatePosition_tiering_witness :
    calculatePosition 10 xScale = xScale 0 ∧
    calculatePosition 7 xScale = xScale (7 / 2) ∧
    calculatePosition 3 yScale = yScale 3 :=
  ⟨(calculatePosition_tiering 10 xScale []).1 rfl,
   (calculatePosition_tiering 7 xScale []).2.1 (by decide) (by decide),
   (calculatePosition_tiering 3 yScale []).2.2.1 (by decide)⟩

/-- C2: the point size is exactly 7 for `v < 5`, `7 * 1.4 = 9.8` for
`5 ≤ v < 10`, and `7 * 1.8 = 12.6` for `v = 10`, strictly increasing
across the tiers: `base < 1.4 * base < 1.8 * base`. -/
theorem calculateSize_tiering (v : ℚ) :
    (v < 5 → calculateSize v = 7) ∧
    (5 ≤ v → v < 10 → calculateSize v = 7 * 1.4) ∧
    (v = 10 → calculateSize v = 7 * 1.8) ∧
    7 * (1.4 : ℚ) = 9.8 ∧ 7 * (1.8 : ℚ) = 12.6 ∧
    baseSize < baseSize * 1.4 ∧ baseSize * 1.4 < baseSize * 1.8 := by
  refine ⟨fun h5 => by
            simp [calculateSize, baseSize, ne_of_lt (by linarith : v < 10),
                  not_le.mpr h5],
          fun h5 h10 => by simp [calculateSize, baseSize, ne_of_lt h10, h5],
          fun h => by simp [calculateSize, baseSize, h],
          by norm_num, by norm_num, by norm_num [baseSize], by norm_num [baseSize]⟩

/-- Witness for C2 at concrete strengths 3, 7 and 10. -/
theorem calculateSize_tiering_witness :
    calculateSize 3 = 7 ∧ calculateSize 7 = 7 * 1.4 ∧ calculateSize 10 = 7 * 1.8 :=
  ⟨(calculateSize_tiering 3).1 (by decide),
   (calculateSize_tiering 7).2.1 (by decide) (by decide),
   (calculateSize_tiering 10).2.2.1 rfl⟩

/-- C4: a null/absent mapping, or an absent container, makes the renderer
a silent no-op (the container's children are returned unchanged, no error
is possible in the total function); a present mapping with a present
container renders the chart. -/
theorem render_null_guard (data : Option (List (String × IdentityData)))
    (hasContainer : Bool) (container : List Chart) :
    (data = none → render data hasContainer container = container) ∧
    (hasContainer = false → render data hasContainer container = container) ∧
    (∀ d, data = some d → hasContainer = true →
      render data hasContainer container = [buildChart d]) := by
  refine ⟨?_, ?_, ?_⟩ <;> cases data <;> cases hasContainer <;> simp [render]

/-- Witness for C4: a null mapping and an absent container are no-ops on a
concrete container; the sample mapping renders. -/
theorem render_null_guard_witness :
    render none true [] = [] ∧
    render (some sampleData) false [buildChart []] = [buildChart []] ∧
    render (some sampleData) true [] = [buildChart sampleData] :=
  ⟨(render_null_guard none true []).1 rfl,
   (render_null_guard (some sampleData) false [buildChart []]).2.1 rfl,
   (render_null_guard (some sampleData) true []).2.2 sampleData rfl rfl⟩

/-- C5: the empty mapping still yields the static chart furniture (both
grid groups, both axis groups, title and subtitle) but zero data points
and zero legend rows. -/
theorem empty_mapping_chart :
    (buildChart []).points = [] ∧ (buildChart []).legendRows = [] ∧
    (buildChart []).gridGroups = 2 ∧ (buildChart []).axisGroups = 2 ∧
    (buildChart []).titleText = "Personal Identity Map" ∧
    (buildChart []).subtitleText =
      "Exploring the dimensions of self-identity and personal values" :=
  ⟨rfl, rfl, rfl, rfl, rfl, rfl⟩

/-- C6: a re-render with mapping `m` clears the container first, so its
result is exactly the freshly built chart, independent of whatever the
container held before, and rendering the same mapping twice equals
rendering it once. -/
theorem rerender_clears_and_idempotent (m : List (String × IdentityData))
    (c c' : List Chart) :
    render (some m) true c = [buildChart m] ∧
    render (some m) true c = render (some m) true c' ∧
    render (some m) true (render (some m) true c) = render (some m) true c :=
  ⟨rfl, rfl, rfl⟩

/-- C10: for `10 < v ≤ 20` the position is `scale (v / 2)` on both axes
and stays inside the plot's pixel extent (`[0, width]` × `[0, height]`);
for `v < -10` or `v > 20` the computed position falls outside the pixel
extent on both axes. -/
theorem out_of_domain_positions (v : ℚ) :
    (10 < v → v ≤ 20 →
      calculatePosition v xScale = xScale (v / 2) ∧
      calculatePosition v yScale = yScale (v / 2) ∧
      0 ≤ calculatePosition v xScale ∧ calculatePosition v xScale ≤ width ∧
      0 ≤ calculatePosition v yScale ∧ calculatePosition v yScale ≤ height) ∧
    (v < -10 →
      calculatePosition v xScale < 0 ∧ height < calculatePosition v yScale) ∧
    (20 < v →
      width < calculatePosition v xScale ∧ calculatePosition v yScale < 0) := by
  have hcp : ∀ s : ℚ → ℚ, 10 < v → calculatePosition v s = s (v / 2) := by
    intro s h
    simp [calculatePosition, ne_of_gt h, le_of_lt (by linarith : (5:ℚ) < v)]
  refine ⟨fun h1 h2 => ?_, fun h => ?_, fun h => ?_⟩
  · rw [hcp xScale h1, hcp yScale h1]
    refine ⟨rfl, rfl, ?_, ?_, ?_, ?_⟩ <;>
      (simp only [xScale, yScale, width, height, marginTop, marginRight,
                  marginBottom, marginLeft]; ring_nf; linarith)
  · have hne : calculatePosition v xScale = xScale v := by
      simp [calculatePosition, ne_of_lt (by linarith : v < 10),
            not_le.mpr (by linarith : v < 5)]
    have hne2 : calculatePosition v yScale = yScale v := by
      simp [calculatePosition, ne_of_lt (by linarith : v < 10),
            not_le.mpr (by linarith : v < 5)]
    rw [hne, hne2]
    constructor <;>
      (simp only [xScale, yScale, width, height, marginTop, marginRight,
                  marginBottom, marginLeft]; ring_nf; linarith)
  · rw [hcp xScale (by linarith), hcp yScale (by linarith)]
    constructor <;>
      (simp only [xScale, yScale, width, height, marginTop, marginRight,
                  marginBottom, marginLeft]; ring_nf; linarith)

/-- Witness for C10 at concrete strengths 16, -12 and 24. -/
theorem out_of_domain_positions_witness :
    (calculatePosition 16 xScale = xScale (16 / 2) ∧
     calculatePosition 16 yScale = yScale (16 / 2) ∧
     0 ≤ calculatePosition 16 xScale ∧ calculatePosition 16 xScale ≤ width ∧
     0 ≤ calculatePosition 16 yScale ∧ calculatePosition 16 yScale ≤ height) ∧
    (calculatePosition (-12) xScale < 0 ∧ height < calculatePosition (-12) yScale) ∧
    (width < calculatePosition 24 xScale ∧ calculatePosition 24 yScale < 0) :=
  ⟨(out_of_domain_positions 16).1 (by decide) (by decide),
   (out_of_domain_positions (-12)).2.1 (by decide),
   (out_of_domain_positions 24).2.2 (by decide)⟩

/-- C3: hovering the dot at index `i` of a mapping of size `N` joins
exactly `N - 1` connector lines, one per remaining index, each starting
(`x1`/`y1`) at the hovered entry's rendered position on both axes and
ending at the other entry's position; after pointer-leave no connector
line remains. -/
theorem hover_connector_lines (s : HoverState) (i : ℕ)
    (hi : i < s.entries.length) :
    (mouseover s i).connLines.length = s.entries.length - 1 ∧
    (∀ l ∈ (mouseover s i).connLines,
      l.x1 = calculatePosition (s.entries.getD i defaultEntry).strength xScale ∧
      l.y1 = calculatePosition (s.entries.getD i defaultEntry).strength yScale) ∧
    (mouseover s i).connLines.map (fun l => (l.x2, l.y2)) =
      ((List.range s.entries.length).filter (fun j => j ≠ i)).map (fun j =>
        (calculatePosition (s.entries.getD j defaultEntry).strength xScale,
         calculatePosition (s.entries.getD j defaultEntry).strength yScale)) ∧
    (mouseout (mouseover s i) i).connLines = [] := by
  have hget := get?_eq_some_getD s.entries i hi
  refine ⟨?_, ?_, ?_, rfl⟩
  · simp only [mouseover, hget, List.length_map]
    exact length_filter_range_ne _ _ hi
  · simp only [mouseover, hget]
    intro l hl
    obtain ⟨j, hj, rfl⟩ := List.mem_map.mp hl
    exact ⟨rfl, rfl⟩
  · simp only [mouseover, hget, List.map_map]
    rfl

/-- Witness for C3: hovering the first of the three sample entries. -/
theorem hover_connector_lines_witness :
    0 < sampleState.entries.length ∧
    ((mouseover sampleState 0).connLines.length = sampleState.entries.length - 1 ∧
     (∀ l ∈ (mouseover sampleState 0).connLines,
       l.x1 = calculatePosition (sampleState.entries.getD 0 defaultEntry).strength xScale ∧
       l.y1 = calculatePosition (sampleState.entries.getD 0 defaultEntry).strength yScale) ∧
     (mouseover sampleState 0).connLines.map (fun l => (l.x2, l.y2)) =
       ((List.range sampleState.entries.length).filter (fun j => j ≠ 0)).map (fun j =>
         (calculatePosition (sampleState.entries.getD j defaultEntry).strength xScale,
          calculatePosition (sampleState.entries.getD j defaultEntry).strength yScale)) ∧
     (mouseout (mouseover sampleState 0) 0).connLines = []) :=
  ⟨by decide, hover_connector_lines sampleState 0 (by decide)⟩

/-- C7: the hover handlers never write the input mapping or the processed
records; pointer-leave restores the hovered dot's radius to
`calculateSize(strength)`, removes all connector lines, and removes the
tooltip element (its class list carries `"absolute"`). -/
theorem hover_transient_effects (s : HoverState) (i : ℕ)
    (hi : i < s.entries.length) :
    (mouseover s i).data = s.data ∧ (mouseover s i).entries = s.entries ∧
    (mouseout s i).data = s.data ∧ (mouseout s i).entries = s.entries ∧
    (mouseout s i).dotRadius =
      s.dotRadius.set i (calculateSize (s.entries.getD i defaultEntry).strength) ∧
    (mouseout s i).connLines = [] ∧
    tooltipClasses ∈ (mouseover s i).bodyElems ∧
    tooltipClasses ∉ (mouseout (mouseover s i) i).bodyElems := by
  have hget := get?_eq_some_getD s.entries i hi
  refine ⟨?_, ?_, rfl, rfl, ?_, rfl, ?_, ?_⟩
  · simp only [mouseover, hget]
  · simp only [mouseover, hget]
  · simp only [mouseout, hget]
  · simp only [mouseover, hget]
    exact List.mem_append.mpr (Or.inr (List.mem_singleton.mpr rfl))
  · intro hmem
    have hp := List.of_mem_filter hmem
    have hc : tooltipClasses.contains "absolute" = true := by decide
    rw [hc] at hp
    exact Bool.false_ne_true hp

/-- Witness for C7: hovering then leaving the first sample entry. -/
theorem hover_transient_effects_witness :
    0 < sampleState.entries.length ∧
    ((mouseover sampleState 0).data = sampleState.data ∧
     (mouseover sampleState 0).entries = sampleState.entries ∧
     (mouseout sampleState 0).data = sampleState.data ∧
     (mouseout sampleState 0).entries = sampleState.entries ∧
     (mouseout sampleState 0).dotRadius =
       sampleState.dotRadius.set 0
         (calculateSize (sampleState.entries.getD 0 defaultEntry).strength) ∧
     (mouseout sampleState 0).connLines = [] ∧
     tooltipClasses ∈ (mouseover sampleState 0).bodyElems ∧
     tooltipClasses ∉ (mouseout (mouseover sampleState 0) 0).bodyElems) :=
  ⟨by decide, hover_transient_effects sampleState 0 (by decide)⟩

/-- C9: pointer-leave removes every document element whose class list
contains `"absolute"`, not only the tooltip: an unrelated element with
that class present before a hover-then-leave is gone afterwards, while
elements without the class survive. -/
theorem mouseout_removes_absolute_classed (s : HoverState) (i : ℕ)
    (u : List String) (hu : u ∈ s.bodyElems) (ha : "absolute" ∈ u) :
    u ∈ (mouseover s i).bodyElems ∧
    u ∉ (mouseout (mouseover s i) i).bodyElems ∧
    ∀ w ∈ s.bodyElems, "absolute" ∉ w →
      w ∈ (mouseout (mouseover s i) i).bodyElems := by
  refine ⟨?_, ?_, ?_⟩
  · cases hx : s.entries.get? i with
    | none =>
      simp only [mouseover, hx]
      exact hu
    | some d =>
      simp only [mouseover, hx]
      exact List.mem_append.mpr (Or.inl hu)
  · intro hmem
    have hp := List.of_mem_filter hmem
    have hc : u.contains "absolute" = true := List.elem_iff.mpr ha
    rw [hc] at hp
    exact Bool.false_ne_true hp
  · intro w hw hwa
    have hw2 : w ∈ (mouseover s i).bodyElems := by
      cases hx : s.entries.get? i with
      | none =>
        simp only [mouseover, hx]
        exact hw
      | some d =>
        simp only [mouseover, hx]
        exact List.mem_append.mpr (Or.inl hw)
    refine List.mem_filter.mpr ⟨hw2, ?_⟩
    have : w.contains "absolute" = false := by
      cases hcc : w.contains "absolute" with
      | false => rfl
      | true => exact absurd (List.elem_iff.mp hcc) hwa
    simp only [this]
    rfl

/-- Witness for C9: the sample document's unrelated `"absolute"`-classed
banner is removed by a hover-then-leave over the first entry. -/
theorem mouseout_removes_absolute_classed_witness :
    (["absolute", "unrelated-banner"] ∈ sampleState.bodyElems ∧
     "absolute" ∈ (["absolute", "unrelated-banner"] : List String)) ∧
    ((["absolute", "unrelated-banner"] : List String) ∈
       (mouseover sampleState 0).bodyElems ∧
     (["absolute", "unrelated-banner"] : List String) ∉
       (mouseout (mouseover sampleState 0) 0).bodyElems ∧
     ∀ w ∈ sampleState.bodyElems, "absolute" ∉ w →
       w ∈ (mouseout (mouseover sampleState 0) 0).bodyElems) :=
  ⟨⟨by decide, by decide⟩,
   mouseout_removes_absolute_classed sampleState 0 ["absolute", "unrelated-banner"]
     (by decide) (by decide)⟩

theorem ordinalColor_snd (a : List String) (n : String) :
    (ordinalColor a n).2 = (ordinalIndex a n).2 := rfl

theorem ordinalIndex_spec (a : List String) (n : String) :
    (∃ t, (ordinalIndex a n).2 = a ++ t) ∧
    n ∈ (ordinalIndex a n).2 ∧
    (ordinalIndex a n).2.indexOf n = (ordinalIndex a n).1 := by
  by_cases h : n ∈ a
  · exact ⟨⟨[], by simp [ordinalIndex, h]⟩, by simp [ordinalIndex, h],
           by simp [ordinalIndex, h]⟩
  · refine ⟨⟨[n], by simp [ordinalIndex, h]⟩, by simp [ordinalIndex, h], ?_⟩
    simp only [ordinalIndex, h, if_false]
    rw [List.indexOf_append_of_not_mem h, List.indexOf_cons_self]
    omega

theorem drawPoints_assigned_extend (entries : List ProcessedEntry) (a : List String) :
    ∃ t, (drawPoints entries a).2 = a ++ t := by
  induction entries generalizing a with
  | nil => exact ⟨[], by simp [drawPoints]⟩
  | cons e rest ih =>
    obtain ⟨t1, ht1⟩ := (ordinalIndex_spec a e.name).1
    obtain ⟨t2, ht2⟩ := ih (ordinalColor a e.name).2
    refine ⟨t1 ++ t2, ?_⟩
    simp only [drawPoints]
    rw [ht2, ordinalColor_snd, ht1, List.append_assoc]

theorem colorAt_append (a t : List String) (n : String) (h : n ∈ a) :
    colorAt (a ++ t) n = colorAt a n := by
  simp [colorAt, List.indexOf_append_of_mem h]

theorem drawPoints_fills (entries : List ProcessedEntry) (a : List String) :
    (drawPoints entries a).1.map (fun g => g.dot.fill) =
      entries.map (fun e => colorAt (drawPoints entries a).2 e.name) := by
  induction entries generalizing a with
  | nil => rfl
  | cons e rest ih =>
    obtain ⟨t2, ht2⟩ := drawPoints_assigned_extend rest (ordinalColor a e.name).2
    have hmem : e.name ∈ (ordinalColor a e.name).2 :=
      ordinalColor_snd a e.name ▸ (ordinalIndex_spec a e.name).2.1
    simp only [drawPoints, List.map_cons]
    rw [ht2, colorAt_append _ _ _ hmem, ih (ordinalColor a e.name).2, ht2]
    have hhead : (ordinalColor a e.name).1 = colorAt (ordinalColor a e.name).2 e.name := by
      rw [ordinalColor_snd]
      simp [ordinalColor, colorAt, (ordinalIndex_spec a e.name).2.2]
    rw [hhead]

theorem drawPoints_names_assigned (entries : List ProcessedEntry) (a : List String) :
    ∀ e ∈ entries, e.name ∈ (drawPoints entries a).2 := by
  induction entries generalizing a with
  | nil => intro e he; cases he
  | cons e0 rest ih =>
    intro e he
    rcases List.mem_cons.mp he with h | h
    · subst h
      obtain ⟨t2, ht2⟩ := drawPoints_assigned_extend rest (ordinalColor a e.name).2
      have hmem : e.name ∈ (ordinalColor a e.name).2 :=
        ordinalColor_snd a e.name ▸ (ordinalIndex_spec a e.name).2.1
      simp only [drawPoints]
      rw [ht2]
      exact List.mem_append_left _ hmem
    · simp only [drawPoints]
      exact ih (ordinalColor a e0.name).2 e h

theorem drawLegend_fills (entries : List ProcessedEntry) (A : List String)
    (h : ∀ e ∈ entries, e.name ∈ A) :
    (drawLegend entries A).1.map (fun r => r.swatchFill) =
      entries.map (fun e => colorAt A e.name) := by
  induction entries with
  | nil => rfl
  | cons e rest ih =>
    have he : e.name ∈ A := h e (List.mem_cons_self e rest)
    have hstate : (ordinalColor A e.name).2 = A := by
      rw [ordinalColor_snd]
      simp [ordinalIndex, he]
    have hfst : (ordinalColor A e.name).1 = colorAt A e.name := by
      simp [ordinalColor, ordinalIndex, he, colorAt]
    simp only [drawLegend, List.map_cons]
    rw [hstate, hfst, ih (fun x hx => h x (List.mem_cons_of_mem e hx))]

/-- C8: every legend swatch is filled with the same color as the matching
entry's inner circle — both are the ordinal color scale's answer for the
entry's name (its first-assignment palette index). -/
theorem legend_point_color_consistency (data : List (String × IdentityData)) :
    (buildChart data).points.map (fun g => g.dot.fill) =
      (processData data).map (fun e =>
        colorAt (drawPoints (processData data) []).2 e.name) ∧
    (buildChart data).legendRows.map (fun r => r.swatchFill) =
      (buildChart data).points.map (fun g => g.dot.fill) := by
  have h1 := drawPoints_fills (processData data) []
  have h2 := drawLegend_fills (processData data) (drawPoints (processData data) []).2
    (drawPoints_names_assigned (processData data) [])
  constructor
  · simpa [buildChart] using h1
  · simp only [buildChart]
    rw [h2, h1]

end SelfMap
